import Mathlib

/-!
Verification of the Health Hawk HTTP health checker (src/index.js) against
its natural-language specification.

The JavaScript program is shallowly embedded as pure Lean functions.
Platform behaviour that the program invokes is made explicit as parameters:

* `new URL(url)` (WHATWG URL parsing) either succeeds, yielding the parsed
  protocol string (for example "http:" or "ftp:"), or throws; it is passed in
  as a value of type `Option String` (`none` = the constructor throws).
* Each network attempt made through `http.request` / `https.request` is
  described by an `AttemptResult` drawn from an environment `env : Nat →
  AttemptResult`; attempt number `k` observes `env k`.  This models the
  response callback (`res.statusCode`), the `error` event, and the
  `setTimeout` handler of one request.
* Node `http.request` (resp. `https.request`) throws synchronously when the
  protocol of the parsed URL is not "http:" (resp. "https:"); a synchronous throw
  inside a `new Promise` executor rejects the promise.  Rejections are
  modelled by `Except.error`.

Wall-clock measurement (`Date.now()`) is not modelled structurally; each
attempt carries the duration that was measured for it, and the immediate
invalid-protocol path measures (essentially) 0 ms.
-/

namespace HealthHawk

/-- Models JavaScript `String.prototype.startsWith` on the code points of the
two strings (byte-for-byte prefix test on these ASCII inputs). -/
def startsWith (s p : String) : Bool :=
  p.data.isPrefixOf s.data

/-- One settled check result of `checkUrl`, i.e. the object passed to
`resolve`: `{ url, status?, error?, duration, success }`.  `status` is present
exactly when a response was received, `error` exactly when none was. -/
structure Outcome where
  url : String
  status : Option Nat
  error : Option String
  duration : Nat
  success : Bool
deriving Repr, DecidableEq

/-- The module chosen on line 73 of src/index.js:
`url.startsWith("https") ? https : url.startsWith("http") ? http : null`. -/
inductive Proto where
  | https
  | http
deriving Repr, DecidableEq

/-- Line 73: module selection by bare prefix test (`"https"` / `"http"`,
without `"://"`); `none` models the `null` branch. -/
def selectModule (url : String) : Option Proto :=
  if startsWith url "https" then some Proto.https
  else if startsWith url "http" then some Proto.http
  else none

/-- The protocol each Node module accepts; `http.request` throws
`ERR_INVALID_PROTOCOL` when the protocol of the parsed URL differs. -/
def moduleProtocol : Proto → String
  | Proto.https => "https:"
  | Proto.http => "http:"

/-- What one network attempt does: a response with a status code, a transport
error (the `error` event with `err.message`), or the timeout firing.  Each
carries the wall-clock duration measured for that attempt. -/
inductive AttemptResult where
  | response (statusCode : Nat) (duration : Nat)
  | transportError (msg : String) (duration : Nat)
  | timeout (duration : Nat)
deriving Repr, DecidableEq

/-- Line 85: `res.statusCode >= 200 && res.statusCode < 300`. -/
def is2xx (s : Nat) : Bool :=
  decide (200 ≤ s) && decide (s < 300)

/-- The immediate failure resolved on line 77:
`{ url, error: "Invalid URL protocol", duration, success: false }`. -/
def invalidProtocolOutcome (url : String) : Outcome :=
  { url := url, status := none, error := some "Invalid URL protocol"
    duration := 0, success := false }

instance {ε α : Type} [DecidableEq ε] [DecidableEq α] : DecidableEq (Except ε α) :=
  fun a b =>
    match a, b with
    | Except.ok x, Except.ok y =>
      if h : x = y then Decidable.isTrue (congrArg _ h)
      else Decidable.isFalse (fun hc => h (Except.ok.inj hc))
    | Except.error x, Except.error y =>
      if h : x = y then Decidable.isTrue (congrArg _ h)
      else Decidable.isFalse (fun hc => h (Except.error.inj hc))
    | Except.ok _, Except.error _ => Decidable.isFalse (fun hc => Except.noConfusion hc)
    | Except.error _, Except.ok _ => Decidable.isFalse (fun hc => Except.noConfusion hc)

/-- One invocation of `checkUrl`: the settled promise (`Except.ok` = resolved
Outcome, `Except.error` = rejected with the thrown message), together with the
number of `checkUrl` invocations (`calls`) and of network requests actually
issued (`netAttempts`) that it performed, recursion included. -/
structure ProbeTrace where
  result : Except String Outcome
  calls : Nat
  netAttempts : Nat
deriving Repr, DecidableEq

/-- Lines 70-116 of src/index.js, the Probe plus Retry Policy.

`pp` is the outcome of `new URL(url)` (`some` parsed protocol, or `none` when
parsing throws).  `env` supplies the result of each network attempt; `k` is
the index of the next attempt (0 on entry from the runner).  The JavaScript
re-invokes `checkUrl(url, retriesLeft - 1)` on a failed attempt while
`retriesLeft > 0`; `url`, `pp` and `env` are unchanged by re-invocation, and
the attempt index advances. -/
def checkUrl (url : String) (pp : Option String) (env : Nat → AttemptResult) :
    Nat → Nat → ProbeTrace
  | retriesLeft, k =>
    match selectModule url with
    | none =>
      -- lines 75-78: resolve immediately; note: no retriesLeft test here
      ⟨Except.ok (invalidProtocolOutcome url), 1, 0⟩
    | some m =>
      match pp with
      | none =>
        -- line 80: `new URL(url)` throws inside the executor → rejection
        ⟨Except.error "Invalid URL", 1, 0⟩
      | some p =>
        if p = moduleProtocol m then
          match env k, retriesLeft with
          | AttemptResult.response s d, rl =>
            if is2xx s then
              ⟨Except.ok { url := url, status := some s, error := none
                           duration := d, success := true }, 1, 1⟩
            else
              match rl with
              | 0 =>
                ⟨Except.ok { url := url, status := some s, error := none
                             duration := d, success := false }, 1, 1⟩
              | n + 1 =>
                let t := checkUrl url pp env n (k + 1)
                ⟨t.result, t.calls + 1, t.netAttempts + 1⟩
          | AttemptResult.transportError msg d, rl =>
            match rl with
            | 0 =>
              ⟨Except.ok { url := url, status := none, error := some msg
                           duration := d, success := false }, 1, 1⟩
            | n + 1 =>
              let t := checkUrl url pp env n (k + 1)
              ⟨t.result, t.calls + 1, t.netAttempts + 1⟩
          | AttemptResult.timeout d, rl =>
            match rl with
            | 0 =>
              ⟨Except.ok { url := url, status := none, error := some "Timeout"
                           duration := d, success := false }, 1, 1⟩
            | n + 1 =>
              let t := checkUrl url pp env n (k + 1)
              ⟨t.result, t.calls + 1, t.netAttempts + 1⟩
        else
          -- `protocol.request` throws ERR_INVALID_PROTOCOL synchronously
          ⟨Except.error "Protocol not supported", 1, 0⟩

/-- Whether one attempt result takes the success branch (2xx response). -/
def attemptSucceeds : AttemptResult → Bool
  | AttemptResult.response s _ => is2xx s
  | AttemptResult.transportError _ _ => false
  | AttemptResult.timeout _ => false

/-- The resolved Outcome of a successful (2xx) attempt. -/
def successOutcome (url : String) : AttemptResult → Outcome
  | AttemptResult.response s d =>
    { url := url, status := some s, error := none, duration := d, success := true }
  | AttemptResult.transportError _ d =>
    { url := url, status := none, error := none, duration := d, success := true }
  | AttemptResult.timeout d =>
    { url := url, status := none, error := none, duration := d, success := true }

/-- The resolved Outcome when an attempt fails and the budget is exhausted. -/
def failureOutcome (url : String) : AttemptResult → Outcome
  | AttemptResult.response s d =>
    { url := url, status := some s, error := none, duration := d, success := false }
  | AttemptResult.transportError msg d =>
    { url := url, status := none, error := some msg, duration := d, success := false }
  | AttemptResult.timeout d =>
    { url := url, status := none, error := some "Timeout", duration := d, success := false }

/-- One entry of the array returned by `Promise.allSettled` on line 124:
either a fulfilled probe promise carrying its Outcome, or a rejected one
carrying the thrown reason. -/
inductive Settled where
  | fulfilled (value : Outcome)
  | rejected (reason : String)
deriving Repr, DecidableEq

/-- How `Promise.allSettled` records one settled probe promise. -/
def settle (r : Except String Outcome) : Settled :=
  match r with
  | Except.ok o => Settled.fulfilled o
  | Except.error m => Settled.rejected m

/-- The comparator on lines 126-129:
`if (a.status !== "fulfilled" || b.status !== "fulfilled") return 0;
 return (b.value.success === true) - (a.value.success === true);`. -/
def compareSettled (a b : Settled) : Int :=
  match a, b with
  | Settled.fulfilled x, Settled.fulfilled y =>
    (if y.success then (1 : Int) else 0) - (if x.success then (1 : Int) else 0)
  | _, _ => 0

/-- Insertion step of a stable sort driven by `compareSettled`: an element
moves past another only on a strictly positive comparison, so ties keep
their original relative order. -/
def insertSettled (x : Settled) : List Settled → List Settled
  | [] => [x]
  | y :: ys => if 0 < compareSettled x y then y :: insertSettled x ys else x :: y :: ys

/-- `results.sort(comparator)` on line 126.  `Array.prototype.sort` is
required by ECMAScript to be stable, and for arrays of fulfilled entries the
comparator is consistent (it is induced by the key `success`), so any stable
sort — here an insertion sort — computes the array the program produces. -/
def sortSettled : List Settled → List Settled
  | [] => []
  | x :: xs => insertSettled x (sortSettled xs)

/-- Whether a settled entry is counted healthy by the `forEach` on lines
131-152: a fulfilled entry whose Outcome has `success = true`. -/
def isHealthy (r : Settled) : Bool :=
  match r with
  | Settled.fulfilled o => o.success
  | Settled.rejected _ => false

/-- Whether a settled entry is fulfilled (`result.status === "fulfilled"`). -/
def isFulfilled (r : Settled) : Bool :=
  match r with
  | Settled.fulfilled _ => true
  | Settled.rejected _ => false

/-- One printed line of the `forEach` on lines 131-152 (glyph + url, or the
`Unknown promise rejection` line for a rejected entry). -/
inductive Line where
  | healthy (url : String)
  | unhealthy (url : String)
  | unknownRejection
deriving Repr, DecidableEq

/-- The line printed for one settled entry. -/
def lineOf (r : Settled) : Line :=
  match r with
  | Settled.fulfilled o => if o.success then Line.healthy o.url else Line.unhealthy o.url
  | Settled.rejected _ => Line.unknownRejection

/-- One entry of the exported array built on line 157: the fulfilled value,
or the minimal record `{ error: "unknown" }` for a rejected entry. -/
inductive Record where
  | value (o : Outcome)
  | unknownError
deriving Repr, DecidableEq

/-- Line 157: `r.status === "fulfilled" ? r.value : \x7b error: "unknown" \x7d`. -/
def cleanResult (r : Settled) : Record :=
  match r with
  | Settled.fulfilled o => Record.value o
  | Settled.rejected _ => Record.unknownError

/-- The probe for one url as the runner sees it settle: line 123:
`limit(() => checkUrl(url))` followed by `Promise.allSettled`.  `parse` gives
the result of `new URL` per url and `env` the network behaviour per url; the
concurrency limiter does not change which value each promise settles to, and
`allSettled` keeps input order. -/
def probeSettled (parse : String → Option String)
    (env : String → Nat → AttemptResult) (retries : Nat) (url : String) : Settled :=
  settle (checkUrl url (parse url) (env url) retries 0).result

/-- The settled results array of line 124, in input order. -/
def runResults (parse : String → Option String)
    (env : String → Nat → AttemptResult) (retries : Nat)
    (urls : List String) : List Settled :=
  urls.map (probeSettled parse env retries)

/-- Everything `runHealthCheck` (lines 119-161) produces: the sorted results,
the printed per-entry lines, the `healthyCount`/`totalCount` of the summary
line, and the exported array when `--json` was given. -/
structure RunReport where
  sorted : List Settled
  lines : List Line
  healthy : Nat
  total : Nat
  exported : Option (List Record)
deriving Repr, DecidableEq

/-- Lines 119-161 of src/index.js.  `healthyCount` starts at 0 and is
incremented while iterating the (sorted-in-place) results; `totalCount` is
`urls.length`; the export on lines 156-160 maps `cleanResult` over the same
sorted array. -/
def runHealthCheck (parse : String → Option String)
    (env : String → Nat → AttemptResult) (retries : Nat)
    (urls : List String) (jsonRequested : Bool) : RunReport :=
  let results := runResults parse env retries urls
  let sorted := sortSettled results
  { sorted := sorted
    lines := sorted.map lineOf
    healthy := sorted.countP isHealthy
    total := urls.length
    exported := if jsonRequested then some (sorted.map cleanResult) else none }

/-!  JSON export model.  `JSON.stringify(cleanResults, null, 2)` serialises
the records; an object literal keeps its key insertion order, and every value
involved (strings, small non-negative integers, booleans) round-trips through
JSON text exactly, so serialisation is modelled as a JSON tree. -/

/-- JSON values as produced by `JSON.stringify` of the exported array. -/
inductive Json where
  | str (s : String)
  | num (n : Nat)
  | bool (b : Bool)
  | arr (elems : List Json)
  | obj (fields : List (String × Json))

/-- Serialise one exported record, with the key order of the object literals
in src/index.js: `url`, then `status` or `error`, then `duration`, then
`success`; the placeholder is `{ error: "unknown" }`. -/
def encodeRecord : Record → Json
  | Record.value o =>
    Json.obj ([("url", Json.str o.url)]
      ++ (match o.status with
          | some s => [("status", Json.num s)]
          | none => [])
      ++ (match o.error with
          | some m => [("error", Json.str m)]
          | none => [])
      ++ [("duration", Json.num o.duration), ("success", Json.bool o.success)])
  | Record.unknownError => Json.obj [("error", Json.str "unknown")]

/-- Parse one record back from its JSON object. -/
def decodeRecord : Json → Option Record
  | Json.obj [("error", Json.str "unknown")] => some Record.unknownError
  | Json.obj [("url", Json.str u), ("status", Json.num s),
              ("duration", Json.num d), ("success", Json.bool b)] =>
    some (Record.value
      { url := u, status := some s, error := none, duration := d, success := b })
  | Json.obj [("url", Json.str u), ("error", Json.str m),
              ("duration", Json.num d), ("success", Json.bool b)] =>
    some (Record.value
      { url := u, status := none, error := some m, duration := d, success := b })
  | _ => none

/-- Serialise the whole exported array. -/
def encodeRecords (l : List Record) : Json :=
  Json.arr (l.map encodeRecord)

/-- Parse a list of record objects, failing if any entry fails. -/
def decodeRecordList : List Json → Option (List Record)
  | [] => some []
  | x :: xs =>
    match decodeRecord x, decodeRecordList xs with
    | some r, some rs => some (r :: rs)
    | _, _ => none

/-- Parse the whole exported array. -/
def decodeRecords : Json → Option (List Record)
  | Json.arr elems => decodeRecordList elems
  | _ => none

/-- The success flag carried by one exported record, if any. -/
def recSuccess : Record → Option Bool
  | Record.value o => some o.success
  | Record.unknownError => none

/-- The success flag of one in-memory settled entry, if any. -/
def settledSuccess : Settled → Option Bool
  | Settled.fulfilled o => some o.success
  | Settled.rejected _ => none

/-- The url named by one exported record, if any. -/
def recUrl : Record → Option String
  | Record.value o => some o.url
  | Record.unknownError => none

/-- The url named by one printed line, if any. -/
def lineUrl : Line → Option String
  | Line.healthy u => some u
  | Line.unhealthy u => some u
  | Line.unknownRejection => none

/-!  Input stage (lines 50-65).  Reading the file is an external effect: it
either yields the raw lines or fails (for example `ENOENT` on a missing
file), modelled by `ReadResult`.  The program has no try/catch around the
top-level `await readFile(fileName)`, so a read failure propagates as an
unhandled rejection to the process boundary, where Node prints the error
with its stack trace and exits with a non-zero code. -/

/-- What the file system does for the requested input file. -/
inductive ReadResult where
  | ok (rawLines : List String)
  | ioError (msg : String)
deriving Repr, DecidableEq

/-- JavaScript `String.prototype.trim` (ASCII whitespace suffices for the
inputs considered). -/
def trim (s : String) : String :=
  String.mk (((s.data.dropWhile Char.isWhitespace).reverse.dropWhile
    Char.isWhitespace).reverse)

/-- Lines 50-59: collect `line.trim()` for every line whose trimmed form is
non-empty (JavaScript string truthiness); a stream error rejects. -/
def readFile : ReadResult → Except String (List String)
  | ReadResult.ioError m => Except.error m
  | ReadResult.ok rawLines =>
    Except.ok ((rawLines.map trim).filter (fun s => s != ""))

/-- How the process leaves the input stage. -/
inductive StartAction where
  | uncaughtException (msg : String)
  | printedFatal (msg : String)
  | proceed (urls : List String)
deriving Repr, DecidableEq

/-- Lines 61-65: `await readFile(fileName)` (an error here is an unhandled
rejection — Node prints the error with a stack trace and exits non-zero),
then the explicit empty check with `console.error` + `process.exit(1)`.
Network activity (`runHealthCheck`) only ever starts from `proceed`. -/
def startup (r : ReadResult) : StartAction :=
  match readFile r with
  | Except.error m => StartAction.uncaughtException m
  | Except.ok urls =>
    if urls.length = 0 then
      StartAction.printedFatal "The file is empty or contains no valid URLs."
    else StartAction.proceed urls

/-- Whether a start action is the printed-message fatal exit. -/
def isPrintedFatal : StartAction → Bool
  | StartAction.printedFatal _ => true
  | _ => false

/-!  Helper lemmas about `checkUrl`, one per control-flow branch. -/

theorem checkUrl_invalid {url : String} (pp : Option String) (env : Nat → AttemptResult)
    (r k : Nat) (h : selectModule url = none) :
    checkUrl url pp env r k = ⟨Except.ok (invalidProtocolOutcome url), 1, 0⟩ := by
  cases r with
  | zero =>
    cases henv : env k with
    | response s d => simp [checkUrl.eq_1 url pp env k s d henv, h]
    | transportError msg d => simp [checkUrl.eq_3 url pp env k msg d henv, h]
    | timeout d => simp [checkUrl.eq_5 url pp env k d henv, h]
  | succ n =>
    cases henv : env k with
    | response s d => simp [checkUrl.eq_2 url pp env k s d n henv, h]
    | transportError msg d => simp [checkUrl.eq_4 url pp env k n msg d henv, h]
    | timeout d => simp [checkUrl.eq_6 url pp env k n d henv, h]

theorem checkUrl_noparse {url : String} {m : Proto} (env : Nat → AttemptResult)
    (r k : Nat) (h : selectModule url = some m) :
    checkUrl url none env r k = ⟨Except.error "Invalid URL", 1, 0⟩ := by
  cases r with
  | zero =>
    cases henv : env k with
    | response s d => simp [checkUrl.eq_1 url none env k s d henv, h]
    | transportError msg d => simp [checkUrl.eq_3 url none env k msg d henv, h]
    | timeout d => simp [checkUrl.eq_5 url none env k d henv, h]
  | succ n =>
    cases henv : env k with
    | response s d => simp [checkUrl.eq_2 url none env k s d n henv, h]
    | transportError msg d => simp [checkUrl.eq_4 url none env k n msg d henv, h]
    | timeout d => simp [checkUrl.eq_6 url none env k n d henv, h]

theorem checkUrl_badproto {url : String} {m : Proto} {p : String} (env : Nat → AttemptResult)
    (r k : Nat) (h : selectModule url = some m) (hp : p ≠ moduleProtocol m) :
    checkUrl url (some p) env r k = ⟨Except.error "Protocol not supported", 1, 0⟩ := by
  cases r with
  | zero =>
    cases henv : env k with
    | response s d => simp [checkUrl.eq_1 url (some p) env k s d henv, h, hp]
    | transportError msg d => simp [checkUrl.eq_3 url (some p) env k msg d henv, h, hp]
    | timeout d => simp [checkUrl.eq_5 url (some p) env k d henv, h, hp]
  | succ n =>
    cases henv : env k with
    | response s d => simp [checkUrl.eq_2 url (some p) env k s d n henv, h, hp]
    | transportError msg d => simp [checkUrl.eq_4 url (some p) env k n msg d henv, h, hp]
    | timeout d => simp [checkUrl.eq_6 url (some p) env k n d henv, h, hp]

theorem checkUrl_net_success {url : String} {m : Proto} {env : Nat → AttemptResult} {k : Nat}
    (r : Nat) (hm : selectModule url = some m) (ha : attemptSucceeds (env k) = true) :
    checkUrl url (some (moduleProtocol m)) env r k
      = ⟨Except.ok (successOutcome url (env k)), 1, 1⟩ := by
  cases henv : env k with
  | response s d =>
    rw [henv] at ha
    simp only [attemptSucceeds] at ha
    cases r with
    | zero =>
      simp [checkUrl.eq_1 url (some (moduleProtocol m)) env k s d henv, hm, henv,
        successOutcome, ha]
    | succ n =>
      simp [checkUrl.eq_2 url (some (moduleProtocol m)) env k s d n henv, hm, henv,
        successOutcome, ha]
  | transportError msg d =>
    rw [henv] at ha
    simp [attemptSucceeds] at ha
  | timeout d =>
    rw [henv] at ha
    simp [attemptSucceeds] at ha

theorem checkUrl_net_fail_zero {url : String} {m : Proto} {env : Nat → AttemptResult} {k : Nat}
    (hm : selectModule url = some m) (ha : attemptSucceeds (env k) = false) :
    checkUrl url (some (moduleProtocol m)) env 0 k
      = ⟨Except.ok (failureOutcome url (env k)), 1, 1⟩ := by
  cases henv : env k with
  | response s d =>
    rw [henv] at ha
    simp only [attemptSucceeds] at ha
    simp [checkUrl.eq_1 url (some (moduleProtocol m)) env k s d henv, hm, henv,
      failureOutcome, ha]
  | transportError msg d =>
    simp [checkUrl.eq_3 url (some (moduleProtocol m)) env k msg d henv, hm, henv,
      failureOutcome]
  | timeout d =>
    simp [checkUrl.eq_5 url (some (moduleProtocol m)) env k d henv, hm, henv,
      failureOutcome]

theorem checkUrl_net_fail_succ {url : String} {m : Proto} {env : Nat → AttemptResult}
    {k n : Nat} (hm : selectModule url = some m) (ha : attemptSucceeds (env k) = false) :
    checkUrl url (some (moduleProtocol m)) env (n + 1) k
      = ⟨(checkUrl url (some (moduleProtocol m)) env n (k + 1)).result,
         (checkUrl url (some (moduleProtocol m)) env n (k + 1)).calls + 1,
         (checkUrl url (some (moduleProtocol m)) env n (k + 1)).netAttempts + 1⟩ := by
  cases henv : env k with
  | response s d =>
    rw [henv] at ha
    simp only [attemptSucceeds] at ha
    simp [checkUrl.eq_2 url (some (moduleProtocol m)) env k s d n henv, hm, ha]
  | transportError msg d =>
    simp [checkUrl.eq_4 url (some (moduleProtocol m)) env k n msg d henv, hm]
  | timeout d =>
    simp [checkUrl.eq_6 url (some (moduleProtocol m)) env k n d henv, hm]

theorem checkUrl_calls_pos (url : String) (pp : Option String) (env : Nat → AttemptResult)
    (r k : Nat) : 1 ≤ (checkUrl url pp env r k).calls := by
  rcases hsel : selectModule url with _ | m
  · rw [checkUrl_invalid pp env r k hsel]
  · rcases pp with _ | p
    · rw [checkUrl_noparse env r k hsel]
    · by_cases hp : p = moduleProtocol m
      · subst hp
        cases ha : attemptSucceeds (env k)
        · cases r with
          | zero => rw [checkUrl_net_fail_zero hsel ha]
          | succ n =>
            rw [checkUrl_net_fail_succ hsel ha]
            exact Nat.le_add_left 1 _
        · rw [checkUrl_net_success r hsel ha]
      · rw [checkUrl_badproto env r k hsel hp]

theorem checkUrl_calls_le (url : String) (pp : Option String) (env : Nat → AttemptResult) :
    ∀ r k, (checkUrl url pp env r k).calls ≤ r + 1 := by
  intro r
  induction r with
  | zero =>
    intro k
    rcases hsel : selectModule url with _ | m
    · rw [checkUrl_invalid pp env 0 k hsel]
    · rcases pp with _ | p
      · rw [checkUrl_noparse env 0 k hsel]
      · by_cases hp : p = moduleProtocol m
        · subst hp
          cases ha : attemptSucceeds (env k)
          · rw [checkUrl_net_fail_zero hsel ha]
          · rw [checkUrl_net_success 0 hsel ha]
        · rw [checkUrl_badproto env 0 k hsel hp]
  | succ n ih =>
    intro k
    rcases hsel : selectModule url with _ | m
    · rw [checkUrl_invalid pp env (n + 1) k hsel]
      exact Nat.le_add_left 1 _
    · rcases pp with _ | p
      · rw [checkUrl_noparse env (n + 1) k hsel]
        exact Nat.le_add_left 1 _
      · by_cases hp : p = moduleProtocol m
        · subst hp
          cases ha : attemptSucceeds (env k)
          · rw [checkUrl_net_fail_succ hsel ha]
            exact Nat.succ_le_succ (ih (k + 1))
          · rw [checkUrl_net_success (n + 1) hsel ha]
            exact Nat.le_add_left 1 _
        · rw [checkUrl_badproto env (n + 1) k hsel hp]
          exact Nat.le_add_left 1 _

theorem checkUrl_net_attempts_pos {url : String} {m : Proto} (env : Nat → AttemptResult)
    (r k : Nat) (hm : selectModule url = some m) :
    1 ≤ (checkUrl url (some (moduleProtocol m)) env r k).netAttempts := by
  cases ha : attemptSucceeds (env k)
  · cases r with
    | zero => rw [checkUrl_net_fail_zero hm ha]
    | succ n =>
      rw [checkUrl_net_fail_succ hm ha]
      exact Nat.le_add_left 1 _
  · rw [checkUrl_net_success r hm ha]

theorem checkUrl_first_success {url : String} {m : Proto} (env : Nat → AttemptResult)
    (hm : selectModule url = some m) :
    ∀ r k j, j ≤ r → attemptSucceeds (env (k + j)) = true →
      (∀ i, i < j → attemptSucceeds (env (k + i)) = false) →
      checkUrl url (some (moduleProtocol m)) env r k
        = ⟨Except.ok (successOutcome url (env (k + j))), j + 1, j + 1⟩ := by
  intro r
  induction r with
  | zero =>
    intro k j hj hs _
    have hj0 : j = 0 := Nat.le_zero.mp hj
    subst hj0
    rw [Nat.add_zero] at hs
    rw [checkUrl_net_success 0 hm hs, Nat.add_zero]
  | succ n ih =>
    intro k j hj hs hf
    cases j with
    | zero =>
      rw [Nat.add_zero] at hs
      rw [checkUrl_net_success (n + 1) hm hs, Nat.add_zero]
    | succ j =>
      have h0 : attemptSucceeds (env k) = false := by
        have := hf 0 (Nat.succ_pos j)
        rwa [Nat.add_zero] at this
      rw [checkUrl_net_fail_succ hm h0]
      have hs' : attemptSucceeds (env (k + 1 + j)) = true := by
        rwa [show k + 1 + j = k + (j + 1) by omega]
      have hf' : ∀ i, i < j → attemptSucceeds (env (k + 1 + i)) = false := by
        intro i hi
        have := hf (i + 1) (by omega)
        rwa [show k + (i + 1) = k + 1 + i by omega] at this
      rw [ih (k + 1) j (by omega) hs' hf']
      rw [show k + 1 + j = k + (j + 1) by omega]

theorem checkUrl_all_fail {url : String} {m : Proto} (env : Nat → AttemptResult)
    (hm : selectModule url = some m) :
    ∀ r k, (∀ j, j ≤ r → attemptSucceeds (env (k + j)) = false) →
      checkUrl url (some (moduleProtocol m)) env r k
        = ⟨Except.ok (failureOutcome url (env (k + r))), r + 1, r + 1⟩ := by
  intro r
  induction r with
  | zero =>
    intro k hf
    have h0 : attemptSucceeds (env k) = false := by
      have := hf 0 (Nat.le_refl 0)
      rwa [Nat.add_zero] at this
    rw [checkUrl_net_fail_zero hm h0, Nat.add_zero]
  | succ n ih =>
    intro k hf
    have h0 : attemptSucceeds (env k) = false := by
      have := hf 0 (Nat.zero_le _)
      rwa [Nat.add_zero] at this
    rw [checkUrl_net_fail_succ hm h0]
    have hf' : ∀ j, j ≤ n → attemptSucceeds (env (k + 1 + j)) = false := by
      intro j hj
      have := hf (j + 1) (by omega)
      rwa [show k + (j + 1) = k + 1 + j by omega] at this
    rw [ih (k + 1) hf']
    rw [show k + 1 + n = k + (n + 1) by omega]

theorem checkUrl_net_isOk {url : String} {m : Proto} (env : Nat → AttemptResult)
    (hm : selectModule url = some m) :
    ∀ r k, (checkUrl url (some (moduleProtocol m)) env r k).result.isOk = true := by
  intro r
  induction r with
  | zero =>
    intro k
    cases ha : attemptSucceeds (env k)
    · rw [checkUrl_net_fail_zero hm ha]; rfl
    · rw [checkUrl_net_success 0 hm ha]; rfl
  | succ n ih =>
    intro k
    cases ha : attemptSucceeds (env k)
    · rw [checkUrl_net_fail_succ hm ha]
      exact ih (k + 1)
    · rw [checkUrl_net_success (n + 1) hm ha]; rfl

theorem checkUrl_ok_shape (url : String) (pp : Option String) (env : Nat → AttemptResult) :
    ∀ r k o, (checkUrl url pp env r k).result = Except.ok o →
      (∃ s, o.status = some s ∧ o.error = none ∧ o.success = is2xx s)
      ∨ (o.status = none ∧ ∃ msg, o.error = some msg ∧ o.success = false) := by
  intro r
  induction r with
  | zero =>
    intro k o h
    rcases hsel : selectModule url with _ | m
    · rw [checkUrl_invalid pp env 0 k hsel] at h
      have ho : o = invalidProtocolOutcome url := by
        exact (Except.ok.inj h).symm
      subst ho
      exact Or.inr ⟨rfl, "Invalid URL protocol", rfl, rfl⟩
    · rcases pp with _ | p
      · rw [checkUrl_noparse env 0 k hsel] at h
        exact absurd h (by simp)
      · by_cases hp : p = moduleProtocol m
        · subst hp
          cases ha : attemptSucceeds (env k)
          · rw [checkUrl_net_fail_zero hsel ha] at h
            have ho : o = failureOutcome url (env k) := (Except.ok.inj h).symm
            subst ho
            cases henv : env k with
            | response s d =>
              rw [henv] at ha
              simp only [attemptSucceeds] at ha
              exact Or.inl ⟨s, rfl, rfl, ha.symm⟩
            | transportError msg d =>
              exact Or.inr ⟨rfl, msg, rfl, rfl⟩
            | timeout d =>
              exact Or.inr ⟨rfl, "Timeout", rfl, rfl⟩
          · rw [checkUrl_net_success 0 hsel ha] at h
            have ho : o = successOutcome url (env k) := (Except.ok.inj h).symm
            subst ho
            cases henv : env k with
            | response s d =>
              rw [henv] at ha
              simp only [attemptSucceeds] at ha
              exact Or.inl ⟨s, rfl, rfl, ha.symm⟩
            | transportError msg d =>
              rw [henv] at ha
              simp [attemptSucceeds] at ha
            | timeout d =>
              rw [henv] at ha
              simp [attemptSucceeds] at ha
        · rw [checkUrl_badproto env 0 k hsel hp] at h
          exact absurd h (by simp)
  | succ n ih =>
    intro k o h
    rcases hsel : selectModule url with _ | m
    · rw [checkUrl_invalid pp env (n + 1) k hsel] at h
      have ho : o = invalidProtocolOutcome url := (Except.ok.inj h).symm
      subst ho
      exact Or.inr ⟨rfl, "Invalid URL protocol", rfl, rfl⟩
    · rcases pp with _ | p
      · rw [checkUrl_noparse env (n + 1) k hsel] at h
        exact absurd h (by simp)
      · by_cases hp : p = moduleProtocol m
        · subst hp
          cases ha : attemptSucceeds (env k)
          · rw [checkUrl_net_fail_succ hsel ha] at h
            exact ih (k + 1) o h
          · rw [checkUrl_net_success (n + 1) hsel ha] at h
            have ho : o = successOutcome url (env k) := (Except.ok.inj h).symm
            subst ho
            cases henv : env k with
            | response s d =>
              rw [henv] at ha
              simp only [attemptSucceeds] at ha
              exact Or.inl ⟨s, rfl, rfl, ha.symm⟩
            | transportError msg d =>
              rw [henv] at ha
              simp [attemptSucceeds] at ha
            | timeout d =>
              rw [henv] at ha
              simp [attemptSucceeds] at ha
        · rw [checkUrl_badproto env (n + 1) k hsel hp] at h
          exact absurd h (by simp)

/-!  Helper lemmas about the sort and the aggregation. -/

theorem insertSettled_perm (x : Settled) : ∀ l : List Settled,
    (insertSettled x l).Perm (x :: l) := by
  intro l
  induction l with
  | nil => exact List.Perm.refl _
  | cons y ys ih =>
    simp only [insertSettled]
    split
    · exact (ih.cons y).trans (List.Perm.swap x y ys)
    · exact List.Perm.refl _

theorem sortSettled_perm : ∀ l : List Settled, (sortSettled l).Perm l := by
  intro l
  induction l with
  | nil => exact List.Perm.refl _
  | cons x xs ih => exact (insertSettled_perm x (sortSettled xs)).trans (ih.cons x)

theorem compareSettled_healthy_le {x : Settled} (hx : isHealthy x = true) (y : Settled) :
    compareSettled x y ≤ 0 := by
  rcases x with o | r
  · rcases y with o' | r'
    · simp only [isHealthy] at hx
      simp only [compareSettled, hx, if_true]
      split <;> omega
    · simp [compareSettled]
  · simp [isHealthy] at hx

theorem compareSettled_unhealthy_healthy {x y : Settled} (hx : isFulfilled x = true)
    (hxs : isHealthy x = false) (hy : isHealthy y = true) :
    compareSettled x y = 1 := by
  rcases x with o | r
  · rcases y with o' | r'
    · simp only [isHealthy] at hxs hy
      simp [compareSettled, hxs, hy]
    · simp [isHealthy] at hy
  · simp [isFulfilled] at hx

theorem compareSettled_both_unhealthy {x y : Settled} (hxs : isHealthy x = false)
    (hys : isHealthy y = false) : compareSettled x y ≤ 0 := by
  rcases x with o | r
  · rcases y with o' | r'
    · simp only [isHealthy] at hxs hys
      simp [compareSettled, hxs, hys]
    · simp [compareSettled]
  · simp [compareSettled]

theorem insertSettled_healthy {x : Settled} (hx : isHealthy x = true) (l : List Settled) :
    insertSettled x l = x :: l := by
  cases l with
  | nil => rfl
  | cons y ys =>
    simp only [insertSettled]
    rw [if_neg]
    have := compareSettled_healthy_le hx y
    omega

theorem insertSettled_unhealthy {x : Settled} (hx : isFulfilled x = true)
    (hxs : isHealthy x = false) :
    ∀ S F : List Settled, (∀ y ∈ S, isHealthy y = true) →
      (∀ y ∈ F, isHealthy y = false) →
      insertSettled x (S ++ F) = S ++ x :: F := by
  intro S
  induction S with
  | nil =>
    intro F _ hF
    cases F with
    | nil => rfl
    | cons f fs =>
      simp only [List.nil_append, insertSettled]
      rw [if_neg]
      have := compareSettled_both_unhealthy hxs (hF f (by simp))
      omega
  | cons s ss ih =>
    intro F hS hF
    have hs := hS s (by simp)
    have hc : 0 < compareSettled x s := by
      rw [compareSettled_unhealthy_healthy hx hxs hs]
      omega
    simp only [List.cons_append, insertSettled, if_pos hc, List.append_eq]
    rw [ih F (fun y hy => hS y (by simp [hy])) hF]

theorem recSuccess_cleanResult (x : Settled) :
    recSuccess (cleanResult x) = settledSuccess x := by
  cases x <;> rfl

theorem recUrl_cleanResult_lineUrl (x : Settled) :
    recUrl (cleanResult x) = lineUrl (lineOf x) := by
  rcases x with o | r
  · rcases o with ⟨u, st, er, d, su⟩
    cases su <;> rfl
  · rfl

theorem decode_encode_value (o : Outcome)
    (h : (∃ s, o.status = some s ∧ o.error = none)
      ∨ (o.status = none ∧ ∃ msg, o.error = some msg)) :
    decodeRecord (encodeRecord (Record.value o)) = some (Record.value o) := by
  rcases o with ⟨u, st, er, d, su⟩
  rcases h with ⟨s, hs, he⟩ | ⟨hs, msg, he⟩
  · simp only at hs he
    subst hs
    subst he
    rfl
  · simp only at hs he
    subst hs
    subst he
    rfl

theorem decodeRecordList_encode (l : List Record)
    (h : ∀ x ∈ l, decodeRecord (encodeRecord x) = some x) :
    decodeRecordList (l.map encodeRecord) = some l := by
  induction l with
  | nil => rfl
  | cons x xs ih =>
    simp only [List.map_cons, decodeRecordList]
    rw [h x (by simp), ih (fun y hy => h y (by simp [hy]))]

/-!  Claim theorems. -/

/-- Claim C1, counterexample.  With the WHATWG-parseable input `ftp://x`
(protocol `ftp:`) and retry budget 1, the first classification is the
`Invalid URL protocol` failure, yet `checkUrl` is invoked exactly once: lines
75-78 of src/index.js resolve without consulting `retriesLeft`, so the Retry
Policy does not re-invoke the Probe for this failure class, contradicting the
claimed uniform retry. -/
theorem c1_invalid_protocol_not_retried_cex :
    (checkUrl "ftp://x" (some "ftp:") (fun _ => AttemptResult.timeout 0) 1 0).result
      = Except.ok (invalidProtocolOutcome "ftp://x")
    ∧ (checkUrl "ftp://x" (some "ftp:") (fun _ => AttemptResult.timeout 0) 1 0).calls = 1
    ∧ ¬ 2 ≤ (checkUrl "ftp://x" (some "ftp:") (fun _ => AttemptResult.timeout 0) 1 0).calls := by
  decide

/-- Claim C1, amended.  Retry does re-invoke the Probe whenever a network
attempt fails (transport error, non-2xx status, or timeout) and budget
remains, but the `Invalid URL protocol` classification is final immediately:
`checkUrl` is invoked exactly once regardless of the budget, and resolves the
invalid-protocol Outcome. -/
theorem c1_retry_per_failure_class :
    (∀ (url : String) (env : Nat → AttemptResult) (r : Nat) (m : Proto),
      selectModule url = some m → 0 < r → attemptSucceeds (env 0) = false →
      2 ≤ (checkUrl url (some (moduleProtocol m)) env r 0).calls)
    ∧ (∀ (url : String) (pp : Option String) (env : Nat → AttemptResult) (r k : Nat),
      selectModule url = none →
      (checkUrl url pp env r k).calls = 1
      ∧ (checkUrl url pp env r k).result = Except.ok (invalidProtocolOutcome url)) := by
  constructor
  · intro url env r m hm hr ha
    cases r with
    | zero => omega
    | succ n =>
      rw [checkUrl_net_fail_succ hm ha]
      show 2 ≤ (checkUrl url (some (moduleProtocol m)) env n (0 + 1)).calls + 1
      have := checkUrl_calls_pos url (some (moduleProtocol m)) env n (0 + 1)
      omega
  · intro url pp env r k hsel
    rw [checkUrl_invalid pp env r k hsel]
    exact ⟨rfl, rfl⟩

/-- Claim C1 witness: a transport-error failure with budget 2 is retried
(at least two invocations), while an invalid-protocol failure with the same
budget is not (exactly one invocation). -/
theorem c1_retry_per_failure_class_witness :
    2 ≤ (checkUrl "http://a" (some "http:")
          (fun _ => AttemptResult.transportError "connect ECONNREFUSED" 1) 2 0).calls
    ∧ (checkUrl "ftp://a" (some "ftp:") (fun _ => AttemptResult.timeout 0) 2 0).calls = 1 := by
  constructor
  · exact c1_retry_per_failure_class.1 "http://a"
      (fun _ => AttemptResult.transportError "connect ECONNREFUSED" 1) 2 Proto.http
      (by decide) (by decide) (by decide)
  · exact (c1_retry_per_failure_class.2 "ftp://a" (some "ftp:")
      (fun _ => AttemptResult.timeout 0) 2 0 (by decide)).1

/-- Claim C2, counterexample.  `httpx` passes the bare scheme-prefix check
(`startsWith "http"`) but `new URL("httpx")` throws (no scheme separator), so
the `new Promise` executor throws before any `resolve` and the promise
rejects — the Probe does not always resolve.  (The program itself anticipates
this: line 150 prints `Unknown promise rejection` for rejected entries.) -/
theorem c2_probe_can_reject_cex :
    (checkUrl "httpx" none (fun _ => AttemptResult.timeout 0) 0 0).result
      = Except.error "Invalid URL"
    ∧ (checkUrl "httpx" none (fun _ => AttemptResult.timeout 0) 0 0).result.isOk = false := by
  decide

/-- Claim C2, amended.  The promise of the Probe resolves exactly when the URL
fails the scheme-prefix check (immediate invalid-protocol Outcome), or parses
with a protocol matching the selected http/https module; it rejects when the
URL passes the prefix check but `new URL` throws, or the parsed protocol does
not match the chosen module. -/
theorem c2_resolution_characterization (url : String) (pp : Option String)
    (env : Nat → AttemptResult) (r k : Nat) :
    (checkUrl url pp env r k).result.isOk = true
      ↔ (selectModule url = none
          ∨ ∃ m, selectModule url = some m ∧ pp = some (moduleProtocol m)) := by
  rcases hsel : selectModule url with _ | m
  · rw [checkUrl_invalid pp env r k hsel]
    constructor
    · intro _
      exact Or.inl rfl
    · intro _
      rfl
  · rcases pp with _ | p
    · rw [checkUrl_noparse env r k hsel]
      constructor
      · intro hok
        exact absurd hok (by decide)
      · rintro (hnone | ⟨m', _, hpp⟩)
        · exact Option.noConfusion hnone
        · exact Option.noConfusion hpp
    · by_cases hp : p = moduleProtocol m
      · subst hp
        constructor
        · intro _
          exact Or.inr ⟨m, rfl, rfl⟩
        · intro _
          exact checkUrl_net_isOk env hsel r k
      · rw [checkUrl_badproto env r k hsel hp]
        constructor
        · intro hok
          exact absurd hok (by decide)
        · rintro (hnone | ⟨m', hm', hpp⟩)
          · exact Option.noConfusion hnone
          · have hmm : m = m' := Option.some.inj hm'
            subst hmm
            exact absurd (Option.some.inj hpp) hp

/-- Claim C3, counterexample.  `http:example.com` starts with neither
`http://` nor `https://`, yet (WHATWG parses it to `http://example.com/`,
protocol `http:`) the code proceeds to a network attempt and here resolves a
2xx success — not the `Invalid URL protocol` failure the claim requires for
such a URL.  The actual test in the code is the bare prefix `http`/`https`
(line 73), not `http://`/`https://`. -/
theorem c3_scheme_prefix_cex :
    startsWith "http:example.com" "http://" = false
    ∧ startsWith "http:example.com" "https://" = false
    ∧ (checkUrl "http:example.com" (some "http:")
        (fun _ => AttemptResult.response 200 7) 0 0).result
      = Except.ok { url := "http:example.com", status := some 200, error := none
                    duration := 7, success := true } := by
  decide

/-- Claim C3, amended.  The immediate `Invalid URL protocol` Outcome (with no
network attempt) is produced exactly when the URL starts with neither the
bare prefix `https` nor `http`; a URL that passes the prefix check performs a
network attempt whenever parsing succeeds with the protocol the selected
module expects. -/
theorem c3_invalid_protocol_characterization (url : String) (pp : Option String)
    (env : Nat → AttemptResult) (r k : Nat) :
    ((startsWith url "https" = false ∧ startsWith url "http" = false)
      ↔ ((checkUrl url pp env r k).result = Except.ok (invalidProtocolOutcome url)
          ∧ (checkUrl url pp env r k).netAttempts = 0))
    ∧ (∀ m : Proto, selectModule url = some m → pp = some (moduleProtocol m) →
        1 ≤ (checkUrl url pp env r k).netAttempts) := by
  constructor
  · constructor
    · rintro ⟨h1, h2⟩
      have hsel : selectModule url = none := by simp [selectModule, h1, h2]
      rw [checkUrl_invalid pp env r k hsel]
      exact ⟨rfl, rfl⟩
    · rintro ⟨hres, hnet⟩
      by_contra hcon
      have hsel : ∃ m, selectModule url = some m := by
        by_cases h1 : startsWith url "https" = true
        · exact ⟨Proto.https, by simp [selectModule, h1]⟩
        · have h1' : startsWith url "https" = false := by
            revert h1
            cases startsWith url "https" <;> simp
          by_cases h2 : startsWith url "http" = true
          · exact ⟨Proto.http, by simp [selectModule, h1', h2]⟩
          · have h2' : startsWith url "http" = false := by
              revert h2
              cases startsWith url "http" <;> simp
            exact absurd ⟨h1', h2'⟩ hcon
      rcases hsel with ⟨m, hm⟩
      rcases pp with _ | p
      · rw [checkUrl_noparse env r k hm] at hres
        exact absurd hres (by simp)
      · by_cases hp : p = moduleProtocol m
        · subst hp
          have := checkUrl_net_attempts_pos env r k hm
          omega
        · rw [checkUrl_badproto env r k hm hp] at hres
          exact absurd hres (by simp)
  · intro m hm hpp
    subst hpp
    exact checkUrl_net_attempts_pos env r k hm

/-- Claim C3 witness: a well-formed `https://` URL performs a network
attempt. -/
theorem c3_invalid_protocol_characterization_witness :
    1 ≤ (checkUrl "https://a" (some "https:")
          (fun _ => AttemptResult.timeout 0) 0 0).netAttempts :=
  (c3_invalid_protocol_characterization "https://a" (some "https:")
    (fun _ => AttemptResult.timeout 0) 0 0).2 Proto.https (by decide) rfl

/-- Claim C4.  On every input the Probe is invoked at most `r + 1` times.
When the URL reaches the network loop: if attempt `j ≤ r` is the first 2xx
attempt, the Retry Policy stops there, returning that success Outcome after
exactly `j + 1` invocations; if all `r + 1` attempts fail, it returns the
failure Outcome of the last attempt after exactly `r + 1` invocations. -/
theorem c4_retry_budget_bound :
    (∀ (url : String) (pp : Option String) (env : Nat → AttemptResult) (r k : Nat),
      (checkUrl url pp env r k).calls ≤ r + 1)
    ∧ (∀ (url : String) (env : Nat → AttemptResult) (r : Nat) (m : Proto),
        selectModule url = some m →
        (∀ j, j ≤ r → attemptSucceeds (env j) = true →
          (∀ i, i < j → attemptSucceeds (env i) = false) →
          checkUrl url (some (moduleProtocol m)) env r 0
            = ⟨Except.ok (successOutcome url (env j)), j + 1, j + 1⟩)
        ∧ ((∀ j, j ≤ r → attemptSucceeds (env j) = false) →
          checkUrl url (some (moduleProtocol m)) env r 0
            = ⟨Except.ok (failureOutcome url (env r)), r + 1, r + 1⟩)) := by
  constructor
  · intro url pp env r k
    exact checkUrl_calls_le url pp env r k
  · intro url env r m hm
    constructor
    · intro j hj hs hf
      have h := checkUrl_first_success env hm r 0 j hj (by simpa using hs)
        (by intro i hi; simpa using hf i hi)
      simpa using h
    · intro hf
      have h := checkUrl_all_fail env hm r 0 (by intro j hj; simpa using hf j hj)
      simpa using h

/-- Claim C4 witness: with budget 1, a failing first attempt followed by a
200 response stops after the second invocation with the success Outcome. -/
theorem c4_retry_budget_bound_witness :
    checkUrl "http://a" (some "http:")
        (fun k => if k = 0 then AttemptResult.transportError "connect ECONNREFUSED" 3
                  else AttemptResult.response 200 5) 1 0
      = ⟨Except.ok { url := "http://a", status := some 200, error := none
                     duration := 5, success := true }, 2, 2⟩ := by
  have h := (c4_retry_budget_bound.2 "http://a"
      (fun k => if k = 0 then AttemptResult.transportError "connect ECONNREFUSED" 3
                else AttemptResult.response 200 5) 1 Proto.http (by decide)).1 1
      (by decide) (by decide)
      (by
        intro i hi
        have hi0 : i = 0 := by omega
        subst hi0
        decide)
  exact h.trans (by decide)

/-- Claim C5.  Every Outcome a resolved Probe promise carries populates
exactly one of `status`/`error`: either `status = some s` with `error = none`
and `success` equal to the 2xx test of `s`, or `status = none` with
`error = some msg` and `success = false`. -/
theorem c5_outcome_exclusivity (url : String) (pp : Option String)
    (env : Nat → AttemptResult) (r k : Nat) (o : Outcome)
    (h : (checkUrl url pp env r k).result = Except.ok o) :
    (∃ s, o.status = some s ∧ o.error = none ∧ o.success = is2xx s)
    ∨ (o.status = none ∧ ∃ msg, o.error = some msg ∧ o.success = false) :=
  checkUrl_ok_shape url pp env r k o h

/-- Claim C5 witness, at a resolved 204 response. -/
theorem c5_outcome_exclusivity_witness :
    (∃ s, (Outcome.mk "http://a" (some 204) none 5 true).status = some s
        ∧ (Outcome.mk "http://a" (some 204) none 5 true).error = none
        ∧ (Outcome.mk "http://a" (some 204) none 5 true).success = is2xx s)
    ∨ ((Outcome.mk "http://a" (some 204) none 5 true).status = none
        ∧ ∃ msg, (Outcome.mk "http://a" (some 204) none 5 true).error = some msg
        ∧ (Outcome.mk "http://a" (some 204) none 5 true).success = false) :=
  c5_outcome_exclusivity "http://a" (some "http:")
    (fun _ => AttemptResult.response 204 5) 0 0
    (Outcome.mk "http://a" (some 204) none 5 true) (by decide)

/-- Claim C6, counterexample.  The single endpoint `httpx` passes the prefix
check but `new URL("httpx")` throws, so its probe promise rejects: the run
settles one rejected entry and zero fulfilled Outcomes while `totalCount`
is 1 — not exactly one final Outcome per endpoint. -/
theorem c6_one_outcome_per_endpoint_cex :
    (runResults (fun _ => none) (fun _ _ => AttemptResult.timeout 0) 0 ["httpx"]).countP
        isFulfilled = 0
    ∧ (runHealthCheck (fun _ => none) (fun _ _ => AttemptResult.timeout 0) 0 ["httpx"]
        false).total = 1 := by
  decide

/-- Claim C6, amended.  The run settles exactly one result per endpoint;
`totalCount = N`; `healthyCount` equals the number of settled Outcomes with
`success = true` (hence `healthyCount ≤ totalCount`); and when every probe
promise resolves, there is exactly one final Outcome per endpoint. -/
theorem c6_run_counts (parse : String → Option String)
    (env : String → Nat → AttemptResult) (retries : Nat) (urls : List String)
    (jsonRequested : Bool) :
    (runHealthCheck parse env retries urls jsonRequested).total = urls.length
    ∧ (runHealthCheck parse env retries urls jsonRequested).sorted.length = urls.length
    ∧ (runHealthCheck parse env retries urls jsonRequested).healthy
        = (runResults parse env retries urls).countP isHealthy
    ∧ (runHealthCheck parse env retries urls jsonRequested).healthy
        ≤ (runHealthCheck parse env retries urls jsonRequested).total
    ∧ ((∀ x ∈ runResults parse env retries urls, isFulfilled x = true) →
        (runResults parse env retries urls).countP isFulfilled = urls.length) := by
  have hlen : (runResults parse env retries urls).length = urls.length := by
    simp [runResults]
  have hslen : (sortSettled (runResults parse env retries urls)).length = urls.length := by
    rw [(sortSettled_perm _).length_eq, hlen]
  have hcount : (sortSettled (runResults parse env retries urls)).countP isHealthy
      = (runResults parse env retries urls).countP isHealthy :=
    (sortSettled_perm _).countP_eq isHealthy
  refine ⟨rfl, hslen, hcount, ?_, ?_⟩
  · show (sortSettled (runResults parse env retries urls)).countP isHealthy ≤ urls.length
    calc (sortSettled (runResults parse env retries urls)).countP isHealthy
        ≤ (sortSettled (runResults parse env retries urls)).length :=
          List.countP_le_length isHealthy
      _ = urls.length := hslen
  · intro hall
    rw [List.countP_eq_length.mpr hall, hlen]

/-- Claim C6 witness: two resolving endpoints yield two fulfilled Outcomes. -/
theorem c6_run_counts_witness :
    (runResults (fun _ => some "http:") (fun _ _ => AttemptResult.response 200 1) 0
      ["http://a", "http://b"]).countP isFulfilled = 2 := by
  have h := (c6_run_counts (fun _ => some "http:")
      (fun _ _ => AttemptResult.response 200 1) 0 ["http://a", "http://b"] false).2.2.2.2
      (by decide)
  simpa using h

/-- Claim C7.  On a collection of fulfilled outcomes the sort is a stable
partition: the result is exactly the healthy entries in their original
relative order followed by the unhealthy entries in their original relative
order.  (With rejected entries present the comparator is not consistent and
ECMAScript leaves the order implementation-defined.) -/
theorem c7_sort_stable_partition (l : List Settled)
    (h : ∀ x ∈ l, isFulfilled x = true) :
    sortSettled l = l.filter isHealthy ++ l.filter (fun r => !isHealthy r) := by
  revert h
  induction l with
  | nil =>
    intro _
    rfl
  | cons x xs ih =>
    intro h
    have hx := h x (by simp)
    have hxs : ∀ y ∈ xs, isFulfilled y = true := fun y hy => h y (by simp [hy])
    simp only [sortSettled]
    rw [ih hxs]
    cases hhx : isHealthy x
    · rw [insertSettled_unhealthy hx hhx (xs.filter isHealthy)
          (xs.filter (fun r => !isHealthy r))
          (fun y hy => (List.mem_filter.mp hy).2)
          (fun y hy => by
            have := (List.mem_filter.mp hy).2
            simpa using this)]
      simp [List.filter_cons, hhx]
    · rw [insertSettled_healthy hhx]
      simp [List.filter_cons, hhx]

/-- Claim C7 witness: the example of the spec `[fail, success, fail, success]`
sorts to both successes (in order) before both fails (in order). -/
theorem c7_sort_stable_partition_witness :
    sortSettled
      [Settled.fulfilled (Outcome.mk "f1" (some 500) none 1 false),
       Settled.fulfilled (Outcome.mk "s1" (some 200) none 1 true),
       Settled.fulfilled (Outcome.mk "f2" (some 404) none 1 false),
       Settled.fulfilled (Outcome.mk "s2" (some 204) none 1 true)]
    = [Settled.fulfilled (Outcome.mk "s1" (some 200) none 1 true),
       Settled.fulfilled (Outcome.mk "s2" (some 204) none 1 true),
       Settled.fulfilled (Outcome.mk "f1" (some 500) none 1 false),
       Settled.fulfilled (Outcome.mk "f2" (some 404) none 1 false)] := by
  have h := c7_sort_stable_partition
    [Settled.fulfilled (Outcome.mk "f1" (some 500) none 1 false),
     Settled.fulfilled (Outcome.mk "s1" (some 200) none 1 true),
     Settled.fulfilled (Outcome.mk "f2" (some 404) none 1 false),
     Settled.fulfilled (Outcome.mk "s2" (some 204) none 1 true)] (by decide)
  exact h.trans (by decide)

/-- Claim C8.  With `--json` set, the exported array has exactly `totalCount`
records (rejected entries become the minimal `{ error: "unknown" }` record,
never omitted), the serialised form parses back to exactly those records, and
the success flags of the parsed records agree entry-by-entry with the in-memory
sorted results. -/
theorem c8_export_roundtrip (parse : String → Option String)
    (env : String → Nat → AttemptResult) (retries : Nat) (urls : List String) :
    ∃ recs : List Record,
      (runHealthCheck parse env retries urls true).exported = some recs
      ∧ recs.length = (runHealthCheck parse env retries urls true).total
      ∧ decodeRecords (encodeRecords recs) = some recs
      ∧ recs.map recSuccess
          = (runHealthCheck parse env retries urls true).sorted.map settledSuccess := by
  refine ⟨(sortSettled (runResults parse env retries urls)).map cleanResult, rfl, ?_, ?_, ?_⟩
  · show ((sortSettled (runResults parse env retries urls)).map cleanResult).length
        = urls.length
    rw [List.length_map, (sortSettled_perm _).length_eq]
    simp [runResults]
  · simp only [encodeRecords, decodeRecords]
    apply decodeRecordList_encode
    intro x hx
    rcases List.mem_map.mp hx with ⟨y, hy, hxy⟩
    subst hxy
    rcases y with o | reason
    · show decodeRecord (encodeRecord (Record.value o)) = some (Record.value o)
      have hy' : Settled.fulfilled o ∈ runResults parse env retries urls :=
        ((sortSettled_perm _).mem_iff).mp hy
      rcases List.mem_map.mp hy' with ⟨u, _, hpu⟩
      have hres : (checkUrl u (parse u) (env u) retries 0).result = Except.ok o := by
        unfold probeSettled at hpu
        cases hr : (checkUrl u (parse u) (env u) retries 0).result with
        | ok o' =>
          rw [hr] at hpu
          simp only [settle] at hpu
          rw [Settled.fulfilled.inj hpu]
        | error e =>
          rw [hr] at hpu
          simp [settle] at hpu
      have hshape := checkUrl_ok_shape u (parse u) (env u) retries 0 o hres
      apply decode_encode_value
      rcases hshape with ⟨s, hs, he, _⟩ | ⟨hs, msg, he, _⟩
      · exact Or.inl ⟨s, hs, he⟩
      · exact Or.inr ⟨hs, msg, he⟩
    · rfl
  · show ((sortSettled (runResults parse env retries urls)).map cleanResult).map recSuccess
        = (sortSettled (runResults parse env retries urls)).map settledSuccess
    rw [List.map_map]
    simp [Function.comp, recSuccess_cleanResult]

/-- Claim C9, counterexample.  A missing input file makes `createReadStream`
error and the un-caught `await readFile(fileName)` rejection reaches the
process boundary, where Node reports the error together with its stack trace
and exits non-zero — not the stack-trace-free printed message the claim
requires for the missing-input case. -/
theorem c9_missing_file_cex :
    isPrintedFatal (startup (ReadResult.ioError
        "ENOENT: no such file or directory, open urls.txt")) = false
    ∧ startup (ReadResult.ioError "ENOENT: no such file or directory, open urls.txt")
      = StartAction.uncaughtException "ENOENT: no such file or directory, open urls.txt" := by
  decide

/-- Claim C9, amended.  A read error propagates as an uncaught exception to
the process boundary (Node prints the error with a stack trace and exits
non-zero); an input that cleans to zero endpoints exits via the printed
message `The file is empty or contains no valid URLs.`; a non-empty cleaned
list proceeds to the run.  In all fatal cases this happens in the input
stage, before `runHealthCheck` and hence before any network activity. -/
theorem c9_input_stage (msg : String) (rawLines : List String) :
    startup (ReadResult.ioError msg) = StartAction.uncaughtException msg
    ∧ ((rawLines.map trim).filter (fun s => s != "") = [] →
        startup (ReadResult.ok rawLines)
          = StartAction.printedFatal "The file is empty or contains no valid URLs.")
    ∧ (∀ us : List String, (rawLines.map trim).filter (fun s => s != "") = us →
        us ≠ [] → startup (ReadResult.ok rawLines) = StartAction.proceed us) := by
  refine ⟨rfl, fun h => ?_, fun us hus hne => ?_⟩
  · simp [startup, readFile, h]
  · have hl : us.length ≠ 0 := by
      intro hl0
      exact hne (List.length_eq_zero.mp hl0)
    simp [startup, readFile, hus, hl]

/-- Claim C9 witness: blank-only input exits with the printed message; a
non-blank line proceeds (trimmed). -/
theorem c9_input_stage_witness :
    startup (ReadResult.ok ["", "  "])
      = StartAction.printedFatal "The file is empty or contains no valid URLs."
    ∧ startup (ReadResult.ok [" http://a "]) = StartAction.proceed ["http://a"] := by
  constructor
  · exact (c9_input_stage "x" ["", "  "]).2.1 (by decide)
  · exact (c9_input_stage "x" [" http://a "]).2.2 ["http://a"] (by decide) (by decide)

/-- Claim C10.  The exported array is the sorted results array mapped through
`cleanResult` — the very array that drives the printed lines, so the exported
urls agree position-by-position with the displayed urls; concretely, with a
failing first endpoint and succeeding second one the export order is the
success-first display order, not the input order. -/
theorem c10_export_uses_sorted_order :
    (∀ (parse : String → Option String) (env : String → Nat → AttemptResult)
        (retries : Nat) (urls : List String),
      (runHealthCheck parse env retries urls true).exported
        = some ((runHealthCheck parse env retries urls true).sorted.map cleanResult)
      ∧ ((runHealthCheck parse env retries urls true).sorted.map cleanResult).map recUrl
        = (runHealthCheck parse env retries urls true).lines.map lineUrl)
    ∧ ((runHealthCheck (fun _ => some "http:")
          (fun u _ => if u = "http://a" then AttemptResult.response 500 1
                      else AttemptResult.response 200 1)
          0 ["http://a", "http://b"] true).exported.getD []).map recUrl
      = [some "http://b", some "http://a"] := by
  constructor
  · intro parse env retries urls
    refine ⟨rfl, ?_⟩
    show ((sortSettled (runResults parse env retries urls)).map cleanResult).map recUrl
        = ((sortSettled (runResults parse env retries urls)).map lineOf).map lineUrl
    rw [List.map_map, List.map_map]
    simp [Function.comp, recUrl_cleanResult_lineUrl]
  · decide

end HealthHawk
